import Mathlib

/-!
Verification of the intmax2 mining CLI core: the claim-witness chain builder
(src/services/claim/witness_generation.rs), the mining/exit mode loops
(src/services/mod.rs), the balance-sweep transfer (src/services/balance_transfer.rs)
and the receipt-polling helper (src/external_api/contracts/utils.rs), shallowly
embedded in Lean.

Opaque chain data (hashes, Merkle roots and proofs, leaves, pubkeys, salts,
addresses) is modelled as `Nat`; `Bytes32::default()` is the zero value `0`.
-/

namespace MiningCli

/-- Outcome of running a Rust function: a returned `Ok` value, a returned `Err`
value, or a process abort via `panic` (e.g. `Option::unwrap()` on `None`).
The distinction between `err` and `panicked` mirrors Rust semantics: an `Err`
is a first-class return value handed to the caller, a panic is not. -/
inductive RustOutcome (ε α : Type) where
  | ok (value : α)
  | err (error : ε)
  | panicked (msg : String)
deriving Repr, DecidableEq

/-- Does the outcome carry a returned error value? -/
def RustOutcome.isErr {ε α : Type} : RustOutcome ε α → Bool
  | .err _ => true
  | _ => false

/-- Does the outcome carry a returned `Ok` value? -/
def RustOutcome.isOk {ε α : Type} : RustOutcome ε α → Bool
  | .ok _ => true
  | _ => false

/-- The message of the Rust panic raised by `Option::unwrap()` on `None`. -/
def unwrapNoneMsg : String := "called Option::unwrap() on a None value"

/-- A chain-observed deposit event (`Deposited` in
src/external_api/contracts/events.rs, used via `event.deposit()` and
`event.tx_nonce`): the deposited value and the sender's transaction nonce. -/
structure Deposited where
  deposit : Nat
  tx_nonce : Nat
deriving Repr, DecidableEq

/-- A derived key (src/state/key.rs): the fields of `Key` that
`generate_claim_witness` reads. -/
structure Key where
  deposit_private_key : Nat
  withdrawal_address : Nat
deriving Repr, DecidableEq

/-- The deposit hash tree interface used by the witness builder
(`state.deposit_hash_tree`): root query, index lookup by deposit hash
(partial), and proof generation by index. -/
structure DepositHashTree where
  getRoot : Nat
  getIndex : Nat → Option Nat
  prove : Nat → Nat

/-- An eligibility tree (`state.short_term_eligible_tree` /
`state.long_term_eligible_tree`): root query, leaf-index lookup by deposit
index (partial), proof generation and leaf access by leaf index
(`tree.prove` / `tree.get_leaf`). -/
structure EligibleTree where
  getRoot : Nat
  getLeafIndex : Nat → Option Nat
  proveLeaf : Nat → Nat
  getLeaf : Nat → Nat

/-- The slice of `State` (src/state/state.rs) that `generate_claim_witness`
reads: the deposit hash tree and the two eligibility trees. -/
structure State where
  deposit_hash_tree : DepositHashTree
  short_term_eligible_tree : EligibleTree
  long_term_eligible_tree : EligibleTree

/-- The external key-derivation and hashing collaborators
(src/utils/derive_key.rs and the intmax2 zkp crate), abstracted as arbitrary
functions: `derive_pubkey_from_private_key`,
`derive_salt_from_private_key_nonce`, `Deposit::hash`, and
`Address::from_bytes_be` applied to the withdrawal address. None of the
claims depend on their concrete values. -/
structure CryptoEnv where
  derivePubkey : Nat → Nat
  deriveSalt : Nat → Nat → Nat
  hashDeposit : Nat → Nat
  addrToRecipient : Nat → Nat

/-- One claim witness (`ClaimInnerValue` of the mining_circuit_v1 crate),
with the fields listed in the spec's data model, in the order of the
arguments of `ClaimInnerValue::new`. -/
structure ClaimInnerValue where
  deposit_tree_root : Nat
  deposit_index : Nat
  deposit_merkle_proof : Nat
  deposit : Nat
  eligible_tree_root : Nat
  eligible_index : Nat
  eligible_merkle_proof : Nat
  eligible_leaf : Nat
  pubkey : Nat
  salt : Nat
  recipient : Nat
  prev_claim_hash : Nat
  new_claim_hash : Nat
deriving Repr, DecidableEq

/-- Modelled from the spec: the external circuit constructor
`ClaimInnerValue::new` (mining_circuit_v1 crate, outside this repository)
"assembles one ClaimWitness using the current running hash as
prev_claim_hash" and may fail. We abstract it by an arbitrary hash
derivation `newClaimHash` and an arbitrary success predicate `valid`; the
constructor stores its arguments (the spec's §3 field list, including
`prev_claim_hash`) and fills in the derived `new_claim_hash`. -/
structure ClaimCircuit where
  newClaimHash : ClaimInnerValue → Nat
  valid : ClaimInnerValue → Bool

/-- `ClaimInnerValue::new`: succeeds iff `valid` holds of the argument
bundle, in which case the stored fields are the arguments and
`new_claim_hash` is the derived hash. The caller passes the argument bundle
as a `ClaimInnerValue` whose `new_claim_hash` field is a placeholder `0`. -/
def ClaimInnerValue.new (cc : ClaimCircuit) (base : ClaimInnerValue) :
    Except String ClaimInnerValue :=
  if cc.valid base then
    Except.ok { base with new_claim_hash := cc.newClaimHash base }
  else
    Except.error "failed to construct claim inner value"

/-- `if is_short_term { &state.short_term_eligible_tree } else
{ &state.long_term_eligible_tree }` (witness_generation.rs lines 32-36). -/
def eligibleTreeOf (state : State) (is_short_term : Bool) : EligibleTree :=
  if is_short_term then state.short_term_eligible_tree
  else state.long_term_eligible_tree

/-- The `for event in events` loop of `generate_claim_witness`
(witness_generation.rs lines 43-71), with the running hash `prev_claim_hash`
threaded through. Each step looks up the event's deposit index by its
deposit hash (`.unwrap()`: a `None` panics), builds the deposit inclusion
proof, looks up the eligibility leaf index (`.unwrap()` again), builds the
eligibility proof and leaf, derives the per-event salt, calls
`ClaimInnerValue::new` with the running hash (its `Err` propagates via `?`),
and advances the running hash to the new witness's `new_claim_hash`. -/
def claimLoop (env : CryptoEnv) (cc : ClaimCircuit) (state : State)
    (etree : EligibleTree) (deposit_tree_root eligible_tree_root pubkey recipient : Nat)
    (key : Key) : List Deposited → Nat → RustOutcome String (List ClaimInnerValue)
  | [], _ => .ok []
  | event :: rest, prev_claim_hash =>
    match state.deposit_hash_tree.getIndex (env.hashDeposit event.deposit) with
    | none => .panicked unwrapNoneMsg
    | some deposit_index =>
      let deposit_merkle_proof := state.deposit_hash_tree.prove deposit_index
      let deposit := event.deposit
      match etree.getLeafIndex deposit_index with
      | none => .panicked unwrapNoneMsg
      | some eligible_index =>
        let eligible_merkle_proof := etree.proveLeaf eligible_index
        let eligible_leaf := etree.getLeaf eligible_index
        let salt := env.deriveSalt key.deposit_private_key event.tx_nonce
        match ClaimInnerValue.new cc
            { deposit_tree_root, deposit_index, deposit_merkle_proof, deposit,
              eligible_tree_root, eligible_index, eligible_merkle_proof,
              eligible_leaf, pubkey, salt, recipient, prev_claim_hash,
              new_claim_hash := 0 } with
        | .error e => .err e
        | .ok value =>
          match claimLoop env cc state etree deposit_tree_root eligible_tree_root
              pubkey recipient key rest value.new_claim_hash with
          | .ok ws => .ok (value :: ws)
          | .err e => .err e
          | .panicked m => .panicked m

/-- `generate_claim_witness` (witness_generation.rs lines 16-73).
`MAX_CLAIMS` (defined in src/services/claim/mod.rs, not part of the sources
at hand) is a parameter; every theorem below holds for all of its values.
The two `ensure!` checks come first; only then are the tree roots read, the
pubkey and recipient derived, and the per-event loop entered with the
running hash initialized to `Bytes32::default()` (modelled as `0`). -/
def generate_claim_witness (env : CryptoEnv) (cc : ClaimCircuit)
    (MAX_CLAIMS : Nat) (state : State) (key : Key) (is_short_term : Bool)
    (events : List Deposited) : RustOutcome String (List ClaimInnerValue) :=
  if events.length = 0 then .err "No event to generate witness"
  else if MAX_CLAIMS < events.length then
    .err ("Max " ++ toString MAX_CLAIMS ++ " events to generate witness")
  else
    let deposit_tree_root := state.deposit_hash_tree.getRoot
    let etree := eligibleTreeOf state is_short_term
    let eligible_tree_root := etree.getRoot
    let pubkey := env.derivePubkey key.deposit_private_key
    let recipient := env.addrToRecipient key.withdrawal_address
    claimLoop env cc state etree deposit_tree_root eligible_tree_root pubkey
      recipient key events 0

/-- The hash-chain predicate: starting from running hash `prev`, each witness
records `prev` as its `prev_claim_hash` and hands its `new_claim_hash` on. -/
def chainFrom : Nat → List ClaimInnerValue → Prop
  | _, [] => True
  | prev, v :: ws => v.prev_claim_hash = prev ∧ chainFrom v.new_claim_hash ws

lemma ClaimInnerValue.new_ok (cc : ClaimCircuit) (base v : ClaimInnerValue)
    (h : ClaimInnerValue.new cc base = Except.ok v) :
    v = { base with new_claim_hash := cc.newClaimHash base } := by
  unfold ClaimInnerValue.new at h
  split at h
  · exact (Except.ok.injEq _ _).mp h |>.symm
  · exact absurd h (by simp)

/-- The per-suffix specification of the witness loop: on success, the output
has one witness per event, is hash-chained from the initial running hash, and
the i-th witness is assembled from the i-th event (same deposit, salt derived
from that event's nonce, the batch-invariant pubkey and recipient). -/
lemma claimLoop_ok_spec (env : CryptoEnv) (cc : ClaimCircuit) (state : State)
    (etree : EligibleTree) (r1 r2 pk rc : Nat) (key : Key) :
    ∀ (events : List Deposited) (prev : Nat) (ws : List ClaimInnerValue),
      claimLoop env cc state etree r1 r2 pk rc key events prev = .ok ws →
      ws.length = events.length ∧ chainFrom prev ws ∧
      ∀ (i : Nat) (hi : i < ws.length) (hi' : i < events.length),
        (ws.get ⟨i, hi⟩).deposit = (events.get ⟨i, hi'⟩).deposit ∧
        (ws.get ⟨i, hi⟩).salt =
          env.deriveSalt key.deposit_private_key (events.get ⟨i, hi'⟩).tx_nonce ∧
        (ws.get ⟨i, hi⟩).pubkey = pk ∧ (ws.get ⟨i, hi⟩).recipient = rc := by
  intro events
  induction events with
  | nil =>
    intro prev ws h
    simp only [claimLoop, RustOutcome.ok.injEq] at h
    subst h
    refine ⟨rfl, trivial, ?_⟩
    intro i hi
    exact absurd hi (by simp)
  | cons e rest ih =>
    intro prev ws h
    simp only [claimLoop] at h
    split at h
    · exact absurd h (by simp)
    · split at h
      · exact absurd h (by simp)
      · split at h
        · exact absurd h (by simp)
        · rename_i v hnew
          split at h
          · rename_i ws' hrest
            simp only [RustOutcome.ok.injEq] at h
            subst h
            obtain ⟨hlen, hchain, hidx⟩ := ih v.new_claim_hash ws' hrest
            have hv := ClaimInnerValue.new_ok cc _ v hnew
            refine ⟨by simpa using hlen, ⟨by rw [hv], hchain⟩, ?_⟩
            intro i hi hi'
            cases i with
            | zero => rw [hv]; exact ⟨rfl, rfl, rfl, rfl⟩
            | succ j =>
              simpa using hidx j (by simpa using hi) (by simpa using hi')
          · exact absurd h (by simp)
          · exact absurd h (by simp)

lemma chainFrom_get_zero :
    ∀ (ws : List ClaimInnerValue) (p : Nat), chainFrom p ws →
      ∀ h0 : 0 < ws.length, (ws.get ⟨0, h0⟩).prev_claim_hash = p := by
  intro ws p h h0
  cases ws with
  | nil => exact absurd h0 (by simp)
  | cons v ws => exact h.1

lemma chainFrom_get_succ :
    ∀ (ws : List ClaimInnerValue) (p : Nat), chainFrom p ws →
      ∀ (i : Nat) (hi : i + 1 < ws.length),
        (ws.get ⟨i + 1, hi⟩).prev_claim_hash =
          (ws.get ⟨i, Nat.lt_of_succ_lt hi⟩).new_claim_hash := by
  intro ws
  induction ws with
  | nil =>
    intro p _ i hi
    exact absurd hi (by simp)
  | cons v ws ih =>
    intro p h i hi
    cases i with
    | zero =>
      simpa using chainFrom_get_zero ws v.new_claim_hash h.2 (by simpa using hi)
    | succ j =>
      simpa using ih v.new_claim_hash h.2 j (by simpa using hi)

/-- On success, `generate_claim_witness` hands the loop `0` as the initial
running hash, so the output is chained from `Bytes32::default()`. -/
lemma generate_ok_chainFrom (env : CryptoEnv) (cc : ClaimCircuit)
    (MAX_CLAIMS : Nat) (state : State) (key : Key) (is_short_term : Bool)
    (events : List Deposited) (ws : List ClaimInnerValue)
    (h : generate_claim_witness env cc MAX_CLAIMS state key is_short_term events
      = .ok ws) :
    ws.length = events.length ∧ chainFrom 0 ws ∧
      ∀ (i : Nat) (hi : i < ws.length) (hi' : i < events.length),
        (ws.get ⟨i, hi⟩).deposit = (events.get ⟨i, hi'⟩).deposit ∧
        (ws.get ⟨i, hi⟩).salt =
          env.deriveSalt key.deposit_private_key (events.get ⟨i, hi'⟩).tx_nonce ∧
        (ws.get ⟨i, hi⟩).pubkey = env.derivePubkey key.deposit_private_key ∧
        (ws.get ⟨i, hi⟩).recipient = env.addrToRecipient key.withdrawal_address := by
  unfold generate_claim_witness at h
  split at h
  · exact absurd h (by simp)
  · split at h
    · exact absurd h (by simp)
    · exact claimLoop_ok_spec env cc state _ _ _ _ _ key events 0 ws h

/-- C1: whenever `generate_claim_witness` returns `Ok`, the witness sequence
is hash-chained: witness 0's `prev_claim_hash` is the zero/default `Bytes32`
(modelled as `0`), and each later witness's `prev_claim_hash` equals the
previous witness's `new_claim_hash`. Holds for every bound, state, key,
eligibility-tree choice, event batch, and every behaviour of the external
hash/circuit collaborators. -/
theorem generate_claim_witness_hash_chained (env : CryptoEnv) (cc : ClaimCircuit)
    (MAX_CLAIMS : Nat) (state : State) (key : Key) (is_short_term : Bool)
    (events : List Deposited) (ws : List ClaimInnerValue)
    (h : generate_claim_witness env cc MAX_CLAIMS state key is_short_term events
      = .ok ws) :
    (∀ h0 : 0 < ws.length, (ws.get ⟨0, h0⟩).prev_claim_hash = 0) ∧
    ∀ (i : Nat) (hi : i + 1 < ws.length),
      (ws.get ⟨i + 1, hi⟩).prev_claim_hash =
        (ws.get ⟨i, Nat.lt_of_succ_lt hi⟩).new_claim_hash := by
  obtain ⟨-, hchain, -⟩ := generate_ok_chainFrom env cc MAX_CLAIMS state key
    is_short_term events ws h
  exact ⟨chainFrom_get_zero ws 0 hchain, chainFrom_get_succ ws 0 hchain⟩

/-- C2: whenever `generate_claim_witness` returns `Ok`, the witness sequence
has exactly one witness per input event, in input order: the i-th witness is
built from the i-th event (it carries that event's deposit and a salt derived
from that event's `tx_nonce`). -/
theorem generate_claim_witness_length_order (env : CryptoEnv) (cc : ClaimCircuit)
    (MAX_CLAIMS : Nat) (state : State) (key : Key) (is_short_term : Bool)
    (events : List Deposited) (ws : List ClaimInnerValue)
    (h : generate_claim_witness env cc MAX_CLAIMS state key is_short_term events
      = .ok ws) :
    ws.length = events.length ∧
    ∀ (i : Nat) (hi : i < ws.length) (hi' : i < events.length),
      (ws.get ⟨i, hi⟩).deposit = (events.get ⟨i, hi'⟩).deposit ∧
      (ws.get ⟨i, hi⟩).salt =
        env.deriveSalt key.deposit_private_key (events.get ⟨i, hi'⟩).tx_nonce := by
  obtain ⟨hlen, -, hidx⟩ := generate_ok_chainFrom env cc MAX_CLAIMS state key
    is_short_term events ws h
  exact ⟨hlen, fun i hi hi' => ⟨(hidx i hi hi').1, (hidx i hi hi').2.1⟩⟩

/-! Concrete instances used by the witnesses and counterexamples below. -/

/-- A concrete crypto environment for evaluation. -/
def cEnv : CryptoEnv :=
  { derivePubkey := fun k => k + 100, deriveSalt := fun k n => k * 1000 + n,
    hashDeposit := fun d => d, addrToRecipient := fun a => a }

/-- A concrete circuit: the new claim hash is the previous hash plus one, and
construction always succeeds. -/
def cCc : ClaimCircuit :=
  { newClaimHash := fun v => v.prev_claim_hash + 1, valid := fun _ => true }

/-- A concrete state in which every lookup succeeds (the identity trees). -/
def cState : State :=
  { deposit_hash_tree :=
      { getRoot := 7, getIndex := fun h => some h, prove := fun i => i },
    short_term_eligible_tree :=
      { getRoot := 8, getLeafIndex := fun i => some i, proveLeaf := fun i => i,
        getLeaf := fun i => i },
    long_term_eligible_tree :=
      { getRoot := 9, getLeafIndex := fun i => some i, proveLeaf := fun i => i,
        getLeaf := fun i => i } }

/-- A concrete state in which every deposit-hash lookup fails. -/
def cStateMissing : State :=
  { deposit_hash_tree :=
      { getRoot := 7, getIndex := fun _ => none, prove := fun i => i },
    short_term_eligible_tree :=
      { getRoot := 8, getLeafIndex := fun i => some i, proveLeaf := fun i => i,
        getLeaf := fun i => i },
    long_term_eligible_tree :=
      { getRoot := 9, getLeafIndex := fun i => some i, proveLeaf := fun i => i,
        getLeaf := fun i => i } }

/-- A concrete key. -/
def cKey : Key := { deposit_private_key := 1, withdrawal_address := 2 }

/-- Two concrete deposit events with distinct nonces. -/
def cE1 : Deposited := { deposit := 5, tx_nonce := 0 }

/-- Second concrete event. -/
def cE2 : Deposited := { deposit := 6, tx_nonce := 1 }

/-- The witness sequence `generate_claim_witness` produces on
`[cE1, cE2]` over `cState` with `cEnv`/`cCc` (short-term tree). -/
def cWs : List ClaimInnerValue :=
  [{ deposit_tree_root := 7, deposit_index := 5, deposit_merkle_proof := 5,
     deposit := 5, eligible_tree_root := 8, eligible_index := 5,
     eligible_merkle_proof := 5, eligible_leaf := 5, pubkey := 101,
     salt := 1000, recipient := 2, prev_claim_hash := 0, new_claim_hash := 1 },
   { deposit_tree_root := 7, deposit_index := 6, deposit_merkle_proof := 6,
     deposit := 6, eligible_tree_root := 8, eligible_index := 6,
     eligible_merkle_proof := 6, eligible_leaf := 6, pubkey := 101,
     salt := 1001, recipient := 2, prev_claim_hash := 1, new_claim_hash := 2 }]

example : generate_claim_witness cEnv cCc 10 cState cKey true [cE1, cE2]
    = .ok cWs := by rfl

/-- Witness for C1 at a concrete successful run of two events. -/
theorem generate_claim_witness_hash_chained_witness :
    (cWs.get ⟨0, by decide⟩).prev_claim_hash = 0 ∧
    (cWs.get ⟨1, by decide⟩).prev_claim_hash =
      (cWs.get ⟨0, by decide⟩).new_claim_hash :=
  ⟨(generate_claim_witness_hash_chained cEnv cCc 10 cState cKey true
      [cE1, cE2] cWs rfl).1 (by decide),
   (generate_claim_witness_hash_chained cEnv cCc 10 cState cKey true
      [cE1, cE2] cWs rfl).2 0 (by decide)⟩

/-- Witness for C2 at the same concrete run. -/
theorem generate_claim_witness_length_order_witness :
    cWs.length = [cE1, cE2].length ∧
    (cWs.get ⟨1, by decide⟩).deposit = ([cE1, cE2].get ⟨1, by decide⟩).deposit :=
  ⟨(generate_claim_witness_length_order cEnv cCc 10 cState cKey true
      [cE1, cE2] cWs rfl).1,
   ((generate_claim_witness_length_order cEnv cCc 10 cState cKey true
      [cE1, cE2] cWs rfl).2 1 (by decide) (by decide)).1⟩

/-- C3: the batch-size preconditions are checked first and fail fast with the
validation errors of the two `ensure!` lines, before any tree access: the
result on an empty batch, and on a batch longer than `MAX_CLAIMS`, is the
same returned error for EVERY state (so no tree query can influence it), and
the oversize message names the bound `MAX_CLAIMS`. -/
theorem generate_claim_witness_eager_validation (env : CryptoEnv)
    (cc : ClaimCircuit) (MAX_CLAIMS : Nat) (key : Key) (is_short_term : Bool) :
    (∀ state : State,
      generate_claim_witness env cc MAX_CLAIMS state key is_short_term []
        = .err "No event to generate witness") ∧
    ∀ (state : State) (events : List Deposited), MAX_CLAIMS < events.length →
      generate_claim_witness env cc MAX_CLAIMS state key is_short_term events
        = .err ("Max " ++ toString MAX_CLAIMS ++ " events to generate witness") := by
  constructor
  · intro state
    simp [generate_claim_witness]
  · intro state events hlen
    unfold generate_claim_witness
    rw [if_neg (by omega), if_pos hlen]

/-- Witness for C3: both validation errors at concrete inputs (`MAX_CLAIMS`
instantiated to 1, oversize batch of length 2), over the identity-tree state. -/
theorem generate_claim_witness_eager_validation_witness :
    generate_claim_witness cEnv cCc 1 cState cKey true []
      = .err "No event to generate witness" ∧
    generate_claim_witness cEnv cCc 1 cState cKey true [cE1, cE2]
      = .err ("Max " ++ toString 1 ++ " events to generate witness") :=
  ⟨(generate_claim_witness_eager_validation cEnv cCc 1 cKey true).1 cState,
   (generate_claim_witness_eager_validation cEnv cCc 1 cKey true).2 cState
      [cE1, cE2] (by decide)⟩

/-- A per-event lookup failure, as the code can encounter it: the event's
deposit hash is absent from the deposit hash tree, or its deposit index has
no leaf index in the selected eligibility tree. -/
def lookupFails (env : CryptoEnv) (state : State) (etree : EligibleTree)
    (e : Deposited) : Prop :=
  state.deposit_hash_tree.getIndex (env.hashDeposit e.deposit) = none ∨
  ∃ di, state.deposit_hash_tree.getIndex (env.hashDeposit e.deposit) = some di ∧
    etree.getLeafIndex di = none

/-- C4 (amended): when witness building reaches an event whose deposit-hash
or eligibility lookup fails, `generate_claim_witness` fails by PANICKING
(`Option::unwrap()` on `None`) — the failure aborts and is not retried, but
it is a panic, not a returned error. The first conjunct covers an event at
the head of the batch; the second covers an event reached with any running
hash `prev`, i.e. at any position the loop reaches. -/
theorem generate_claim_witness_lookup_failure_panics (env : CryptoEnv)
    (cc : ClaimCircuit) (MAX_CLAIMS : Nat) (state : State) (key : Key)
    (is_short_term : Bool) (e : Deposited) (rest : List Deposited) (prev : Nat)
    (hlen : (e :: rest).length ≤ MAX_CLAIMS)
    (hfail : lookupFails env state (eligibleTreeOf state is_short_term) e) :
    generate_claim_witness env cc MAX_CLAIMS state key is_short_term (e :: rest)
      = .panicked unwrapNoneMsg ∧
    claimLoop env cc state (eligibleTreeOf state is_short_term)
      state.deposit_hash_tree.getRoot (eligibleTreeOf state is_short_term).getRoot
      (env.derivePubkey key.deposit_private_key)
      (env.addrToRecipient key.withdrawal_address) key (e :: rest) prev
      = .panicked unwrapNoneMsg := by
  have hloop : ∀ r1 r2 pk rc p,
      claimLoop env cc state (eligibleTreeOf state is_short_term) r1 r2 pk rc key
        (e :: rest) p = .panicked unwrapNoneMsg := by
    intro r1 r2 pk rc p
    rcases hfail with hnone | ⟨di, hsome, hnone⟩
    · simp [claimLoop, hnone]
    · simp [claimLoop, hsome, hnone]
  refine ⟨?_, hloop _ _ _ _ prev⟩
  unfold generate_claim_witness
  rw [if_neg (by simp), if_neg (by simpa using Nat.not_lt.mpr hlen)]
  exact hloop _ _ _ _ 0

/-- Witness for C4 (amended): a concrete one-event batch whose deposit hash
is missing from the tree makes the builder panic. -/
theorem generate_claim_witness_lookup_failure_panics_witness :
    generate_claim_witness cEnv cCc 10 cStateMissing cKey true [cE1]
      = .panicked unwrapNoneMsg :=
  (generate_claim_witness_lookup_failure_panics cEnv cCc 10 cStateMissing cKey
    true cE1 [] 0 (by decide) (Or.inl rfl)).1

/-- Counterexample for C4 as stated: on a concrete input whose deposit-hash
lookup fails (`cStateMissing` maps every hash to `None`), the function does
NOT propagate a returned error to its caller — the outcome is a panic, and
`isErr` is `false`. -/
theorem generate_claim_witness_lookup_failure_not_an_err :
    cStateMissing.deposit_hash_tree.getIndex (cEnv.hashDeposit cE1.deposit)
      = none ∧
    generate_claim_witness cEnv cCc 10 cStateMissing cKey true [cE1]
      = .panicked unwrapNoneMsg ∧
    (generate_claim_witness cEnv cCc 10 cStateMissing cKey true [cE1]).isErr
      = false :=
  ⟨rfl, rfl, rfl⟩

/-! The mode loops (src/services/mod.rs). A loop iteration is driven by the
fresh `AssetsStatus` snapshot obtained by `sync_and_fetch_assets` at the head
of the iteration; we model a run of the loop against the list of snapshots
those syncs return, in order. Sync or task failure aborts a loop by `?`
propagation; the models below cover the successfully-syncing trace, which is
what C5-C7 quantify over. -/

/-- A fresh per-key assets snapshot (src/services/assets_status.rs): the
deposits made by the sender and the deposit indices partitioned by lifecycle
stage. -/
structure AssetsStatus where
  senders_deposits : List Deposited
  pending_indices : List Nat
  rejected_indices : List Nat
  not_withdrawn_indices : List Nat
  not_claimed_indices : List Nat
deriving Repr, DecidableEq

/-- The mining loop's termination-to-next-key predicate (mod.rs lines 45-48):
`senders_deposits.len() >= mining_times && pending_indices.is_empty() &&
rejected_indices.is_empty() && not_withdrawn_indices.is_empty()`. -/
def advancePred (mining_times : Nat) (s : AssetsStatus) : Bool :=
  decide (mining_times ≤ s.senders_deposits.length) &&
  s.pending_indices.isEmpty && s.rejected_indices.isEmpty &&
  s.not_withdrawn_indices.isEmpty

/-- The `new_deposit` flag passed to `mining_task` (mod.rs lines 57-58):
deposit only if under the quota and no deposit is pending. -/
def newDepositFlag (mining_times : Nat) (s : AssetsStatus) : Bool :=
  decide (s.senders_deposits.length < mining_times) &&
  s.pending_indices.isEmpty

/-- The inner mining loop for one key (mod.rs lines 43-69), run against the
snapshots returned by the head-of-iteration `sync_and_fetch_assets` calls.
Result: `some (key_number', flags)` when the loop breaks to the next key,
where `key_number'` is the key counter after the break and `flags` are the
`new_deposit` booleans passed to `mining_task`, one per executed iteration
in order; `none` when the provided snapshots are exhausted with the loop
still running. The post-task resync (line 63) only feeds
`print_assets_status` and does not influence control flow, so it is not part
of the decision trace. -/
def miningInnerLoop (mining_times key_number : Nat) :
    List AssetsStatus → Option (Nat × List Bool)
  | [] => none
  | s :: rest =>
    if advancePred mining_times s then some (key_number + 1, [])
    else (miningInnerLoop mining_times key_number rest).map
      fun p => (p.1, newDepositFlag mining_times s :: p.2)

/-- C5: in the run whose first predicate-satisfying snapshot is `s` (every
snapshot in `pre` fails the predicate), the inner loop invokes the mining
task once per `pre`-snapshot, then advances the key counter by exactly one
and breaks without invoking the task for `s`'s iteration or consuming any
later snapshot (`rest` is arbitrary and unused). The second conjunct is the
single-iteration fact: a snapshot failing the predicate leaves the key
counter to the remainder of the run — that iteration does not change it. -/
theorem mining_loop_advances_once (mining_times key_number : Nat)
    (pre : List AssetsStatus) (s : AssetsStatus) (rest : List AssetsStatus)
    (hpre : ∀ x ∈ pre, advancePred mining_times x = false)
    (hs : advancePred mining_times s = true) :
    miningInnerLoop mining_times key_number (pre ++ s :: rest)
      = some (key_number + 1, pre.map (newDepositFlag mining_times)) ∧
    ∀ (s' : AssetsStatus) (rest' : List AssetsStatus),
      advancePred mining_times s' = false →
      miningInnerLoop mining_times key_number (s' :: rest')
        = (miningInnerLoop mining_times key_number rest').map
            fun p => (p.1, newDepositFlag mining_times s' :: p.2) := by
  constructor
  · induction pre with
    | nil => simp [miningInnerLoop, hs]
    | cons x pre ih =>
      have hx : advancePred mining_times x = false := hpre x (by simp)
      have ih' := ih fun y hy => hpre y (by simp [hy])
      simp [miningInnerLoop, hx, ih']
  · intro s' rest' hs'
    simp [miningInnerLoop, hs']

/-- Witness for C5: one not-yet-settled snapshot, then a settled one; the key
counter 5 advances to 6 with exactly one task invocation (`new_deposit =
true`). -/
theorem mining_loop_advances_once_witness :
    miningInnerLoop 2 5
      ([{ senders_deposits := [], pending_indices := [], rejected_indices := [],
          not_withdrawn_indices := [], not_claimed_indices := [] }] ++
        { senders_deposits := [cE1, cE2], pending_indices := [],
          rejected_indices := [], not_withdrawn_indices := [],
          not_claimed_indices := [] } :: [])
      = some (5 + 1,
          [{ senders_deposits := [], pending_indices := [], rejected_indices := [],
             not_withdrawn_indices := [], not_claimed_indices := [] }].map
            (newDepositFlag 2)) :=
  (mining_loop_advances_once 2 5
    [{ senders_deposits := [], pending_indices := [], rejected_indices := [],
       not_withdrawn_indices := [], not_claimed_indices := [] }]
    { senders_deposits := [cE1, cE2], pending_indices := [],
      rejected_indices := [], not_withdrawn_indices := [],
      not_claimed_indices := [] } [] (by decide) (by decide)).1

/-- C6: in every terminating run of the inner mining loop, the `new_deposit`
flag of the i-th executed iteration is exactly
`(senders_deposits.len() < mining_times) && pending_indices.is_empty()`
evaluated on that iteration's freshly synced snapshot: the invoked flags are
`newDepositFlag` mapped over the prefix of consumed non-advancing
snapshots. -/
theorem mining_loop_new_deposit_flag (mining_times key_number : Nat)
    (statuses : List AssetsStatus) (key' : Nat) (flags : List Bool)
    (h : miningInnerLoop mining_times key_number statuses = some (key', flags)) :
    flags = (statuses.take flags.length).map (newDepositFlag mining_times) := by
  induction statuses generalizing flags with
  | nil => exact absurd h (by simp [miningInnerLoop])
  | cons s rest ih =>
    rw [miningInnerLoop] at h
    by_cases hs : advancePred mining_times s = true
    · rw [if_pos hs] at h
      simp only [Option.some.injEq, Prod.mk.injEq] at h
      rw [← h.2]
      simp
    · rw [if_neg hs] at h
      cases hrest : miningInnerLoop mining_times key_number rest with
      | none => rw [hrest] at h; exact absurd h (by simp)
      | some p =>
        rw [hrest] at h
        simp only [Option.map_some', Option.some.injEq, Prod.mk.injEq] at h
        have hih := ih p.2 (by rw [hrest, ← h.1])
        rw [← h.2]
        simpa using hih

/-- Witness for C6: a two-iteration run; the recorded flags match
`newDepositFlag` of the consumed snapshots. -/
theorem mining_loop_new_deposit_flag_witness :
    ([true] : List Bool) =
      (([{ senders_deposits := [], pending_indices := [], rejected_indices := [],
           not_withdrawn_indices := [], not_claimed_indices := [] },
         { senders_deposits := [cE1, cE2], pending_indices := [],
           rejected_indices := [], not_withdrawn_indices := [],
           not_claimed_indices := [] }] : List AssetsStatus).take
        ([true] : List Bool).length).map (newDepositFlag 2) :=
  mining_loop_new_deposit_flag 2 5
    [{ senders_deposits := [], pending_indices := [], rejected_indices := [],
       not_withdrawn_indices := [], not_claimed_indices := [] },
     { senders_deposits := [cE1, cE2], pending_indices := [],
       rejected_indices := [], not_withdrawn_indices := [],
       not_claimed_indices := [] }] 6 [true] (by decide)

/-- The exit loop's per-key settlement predicate (mod.rs lines 84-86):
`pending_indices.is_empty() && rejected_indices.is_empty() &&
not_withdrawn_indices.is_empty()`. -/
def exitSettled (s : AssetsStatus) : Bool :=
  s.pending_indices.isEmpty && s.rejected_indices.isEmpty &&
  s.not_withdrawn_indices.isEmpty

/-- The per-key exit loop (mod.rs lines 76-98), run against the snapshots the
iteration-head syncs return. Result: `some calls` when the loop breaks to the
next key, where `calls` records the `(new_deposit, is_exit)` argument pair of
each `mining_task` invocation, in order; `none` when the snapshots are
exhausted with the loop still running. -/
def exitLoopKey : List AssetsStatus → Option (List (Bool × Bool))
  | [] => none
  | s :: rest =>
    if exitSettled s then some []
    else (exitLoopKey rest).map fun cs => (false, true) :: cs

/-- C7: in the run whose first settled snapshot is `s` (every snapshot in
`pre` is unsettled), the per-key exit loop terminates at `s` without another
task invocation and without consuming any later snapshot, having invoked
`mining_task` exactly once per unsettled iteration, each time with
`new_deposit = false` and `is_exit = true`. -/
theorem exit_loop_terminates_when_settled (pre : List AssetsStatus)
    (s : AssetsStatus) (rest : List AssetsStatus)
    (hpre : ∀ x ∈ pre, exitSettled x = false) (hs : exitSettled s = true) :
    exitLoopKey (pre ++ s :: rest)
      = some (List.replicate pre.length (false, true)) := by
  induction pre with
  | nil => simp [exitLoopKey, hs]
  | cons x pre ih =>
    have hx : exitSettled x = false := hpre x (by simp)
    have ih' := ih fun y hy => hpre y (by simp [hy])
    simp [exitLoopKey, hx, ih', List.replicate_succ]

/-- Witness for C7: one unsettled snapshot then a settled one; the loop
records exactly one `(false, true)` task invocation. -/
theorem exit_loop_terminates_when_settled_witness :
    exitLoopKey
      ([{ senders_deposits := [], pending_indices := [3], rejected_indices := [],
          not_withdrawn_indices := [], not_claimed_indices := [] }] ++
        { senders_deposits := [], pending_indices := [], rejected_indices := [],
          not_withdrawn_indices := [], not_claimed_indices := [] } :: [])
      = some (List.replicate
          ([{ senders_deposits := [], pending_indices := [3],
              rejected_indices := [], not_withdrawn_indices := [],
              not_claimed_indices := [] }] : List AssetsStatus).length
          (false, true)) :=
  exit_loop_terminates_when_settled
    [{ senders_deposits := [], pending_indices := [3], rejected_indices := [],
       not_withdrawn_indices := [], not_claimed_indices := [] }]
    { senders_deposits := [], pending_indices := [], rejected_indices := [],
      not_withdrawn_indices := [], not_claimed_indices := [] } []
    (by decide) (by decide)

/-! The cooldown scheduler (mod.rs lines 140-146). `rand::thread_rng()
.gen_range(0..high)` samples uniformly from the half-open range `0..high`;
on an EMPTY range (`high = 0`) the rand crate panics ("cannot sample empty
range"). We model the RNG draw as an arbitrary natural `r`, reduced into the
range by modulus — every value of the range is hit by some `r`, and every
`r` lands in the range. -/

/-- `rand`-style `gen_range(0..high)` on a draw `r`: panics when the range
`0..high` is empty, otherwise yields `r % high ∈ [0, high)`. -/
def gen_range_zero_to (high r : Nat) : RustOutcome String Nat :=
  if high = 0 then .panicked "cannot sample empty range"
  else .ok (r % high)

/-- `mining_cooldown` (mod.rs lines 141-146): sample the cooldown duration
(in seconds) from `0..mining_max_cooldown_in_sec` with the thread RNG; the
sampled duration is what is slept. `Settings::load` succeeding is assumed
(its failure is an environment error, not part of the sampler). -/
def mining_cooldown (mining_max_cooldown_in_sec r : Nat) :
    RustOutcome String Nat :=
  gen_range_zero_to mining_max_cooldown_in_sec r

/-- Counterexample for C8 as stated: with the configured upper bound `0`, the
sampling does NOT succeed — `gen_range(0..0)` is an empty range and the rand
crate panics. -/
theorem mining_cooldown_zero_bound_panics :
    mining_cooldown 0 0 = .panicked "cannot sample empty range" ∧
    (mining_cooldown 0 0).isOk = false :=
  ⟨rfl, rfl⟩

/-- C8 (amended): for every POSITIVE configured upper bound and every RNG
draw, the sampling succeeds and the sampled delay `d` satisfies
`0 ≤ d < mining_max_cooldown_in_sec` (the range is half-open, so in
particular `d ≤ mining_max_cooldown_in_sec`); for bound `0` the sampler
panics on the empty range. -/
theorem mining_cooldown_bounded (mining_max_cooldown_in_sec r : Nat)
    (hpos : 0 < mining_max_cooldown_in_sec) :
    mining_cooldown mining_max_cooldown_in_sec r
      = .ok (r % mining_max_cooldown_in_sec) ∧
    r % mining_max_cooldown_in_sec < mining_max_cooldown_in_sec := by
  constructor
  · unfold mining_cooldown gen_range_zero_to
    rw [if_neg (by omega)]
  · exact Nat.mod_lt r hpos

/-- Witness for C8 (amended): bound 5, draw 12 — the sample is 2 < 5. -/
theorem mining_cooldown_bounded_witness :
    mining_cooldown 5 12 = .ok (12 % 5) ∧ 12 % 5 < 5 :=
  mining_cooldown_bounded 5 12 (by decide)

/-! The balance sweep (src/services/balance_transfer.rs). The chain reads
(`get_balance`, `estimate_gas`, `estimate_eip1559_fees`) are external; given
their values, the submission decision and the transferred amount are pure.
`estimated_gas` is a `u64` and `max_fee_per_gas` a `u128` of alloy's fee
estimation; the products are formed in `U256` (arithmetic modulo `2^256`). -/

/-- The pure core of `balance_transfer` (balance_transfer.rs lines 23-52):
computes `gas_budget = gas_limit * max_fee_per_gas * 2` in `U256`, returns
`none` (Ok, nothing submitted) when `balance <= gas_budget`, and otherwise
submits a transfer of `balance - gas_budget`, returned as `some value`. -/
def balance_transfer_plan (balance estimated_gas max_fee_per_gas : Nat) :
    Option Nat :=
  let gas_budget := estimated_gas * max_fee_per_gas * 2 % 2 ^ 256
  if balance ≤ gas_budget then none
  else some (balance - gas_budget)

/-- C9: with `estimated_gas : u64` and `max_fee_per_gas : u128`, the `U256`
budget product cannot wrap, so: when the balance is at most the gas budget
(`estimated_gas * max_fee_per_gas * 2`), nothing is submitted (the function
returns Ok early); otherwise the submitted value is exactly
`balance - gas_budget`, and transfer value plus gas budget equals the
balance. -/
theorem balance_transfer_exact (balance estimated_gas max_fee_per_gas : Nat)
    (hgas : estimated_gas < 2 ^ 64) (hfee : max_fee_per_gas < 2 ^ 128) :
    (balance ≤ estimated_gas * max_fee_per_gas * 2 →
      balance_transfer_plan balance estimated_gas max_fee_per_gas = none) ∧
    (estimated_gas * max_fee_per_gas * 2 < balance →
      balance_transfer_plan balance estimated_gas max_fee_per_gas
        = some (balance - estimated_gas * max_fee_per_gas * 2) ∧
      (balance - estimated_gas * max_fee_per_gas * 2) +
        estimated_gas * max_fee_per_gas * 2 = balance) := by
  have hnowrap : estimated_gas * max_fee_per_gas * 2 % 2 ^ 256
      = estimated_gas * max_fee_per_gas * 2 := by
    apply Nat.mod_eq_of_lt
    calc estimated_gas * max_fee_per_gas * 2
        < 2 ^ 64 * 2 ^ 128 * 2 := by
          apply Nat.mul_lt_mul_of_lt_of_le _ (le_refl 2) (by omega)
          exact Nat.mul_lt_mul_of_lt_of_le hgas (by omega) (by positivity)
      _ ≤ 2 ^ 256 := by norm_num
  constructor
  · intro hle
    unfold balance_transfer_plan
    rw [hnowrap, if_pos hle]
  · intro hlt
    unfold balance_transfer_plan
    rw [hnowrap, if_neg (by omega)]
    exact ⟨rfl, by omega⟩

/-- Witness for C9: balance 10, gas 1, fee 1 — budget 2, transfer 8, and
8 + 2 = 10; and a balance of 2 is swallowed whole by the budget, so nothing
is submitted. -/
theorem balance_transfer_exact_witness :
    balance_transfer_plan 2 1 1 = none ∧
    balance_transfer_plan 10 1 1 = some (10 - 1 * 1 * 2) ∧
    (10 - 1 * 1 * 2) + 1 * 1 * 2 = 10 :=
  ⟨(balance_transfer_exact 2 1 1 (by norm_num) (by norm_num)).1 (by norm_num),
   (balance_transfer_exact 10 1 1 (by norm_num) (by norm_num)).2 (by norm_num)⟩

/-! Receipt polling (src/external_api/contracts/utils.rs lines 99-119).
`query i` is the outcome of the i-th `get_transaction_receipt` RPC call:
`Except.ok none` (no receipt yet), `Except.ok (some r)` (receipt `r`), or
`Except.error e` (transport failure, propagated by `?`). The 10-second sleep
between attempts has no effect on the returned value or the poll count. -/

/-- The polling loop of `get_tx_receipt`, from loop counter `lc`: if the
counter exceeds 20, return the not-mined error; otherwise query once,
return a transport error or a found receipt immediately, and on `None`
retry with the counter incremented. The second component counts the
receipt queries performed. -/
def receiptLoop (tx_hash : Nat) (query : Nat → Except String (Option Nat))
    (lc : Nat) : Except String Nat × Nat :=
  if _h : 20 < lc then
    (Except.error ("Transaction not mined for tx hash: " ++ toString tx_hash), 0)
  else
    match query lc with
    | Except.error e => (Except.error e, 1)
    | Except.ok (some receipt) => (Except.ok receipt, 1)
    | Except.ok none =>
      let p := receiptLoop tx_hash query (lc + 1)
      (p.1, p.2 + 1)
termination_by 21 - lc
decreasing_by omega

/-- `get_tx_receipt` (utils.rs lines 99-119): poll from loop counter 0. -/
def get_tx_receipt (tx_hash : Nat)
    (query : Nat → Except String (Option Nat)) : Except String Nat × Nat :=
  receiptLoop tx_hash query 0

lemma receiptLoop_all_none (tx_hash : Nat)
    (query : Nat → Except String (Option Nat)) :
    ∀ (n lc : Nat), 21 - lc = n → lc ≤ 21 →
      (∀ i, lc ≤ i → i ≤ 20 → query i = Except.ok none) →
      receiptLoop tx_hash query lc
        = (Except.error ("Transaction not mined for tx hash: " ++
            toString tx_hash), 21 - lc) := by
  intro n
  induction n with
  | zero =>
    intro lc hn hle _
    rw [receiptLoop, dif_pos (by omega), hn]
  | succ m ih =>
    intro lc hn hle hnone
    rw [receiptLoop, dif_neg (by omega)]
    rw [hnone lc (le_refl lc) (by omega)]
    have := ih (lc + 1) (by omega) (by omega)
      (fun i hi hi' => hnone i (by omega) hi')
    simp only [this]
    simp
    omega

lemma receiptLoop_first_some (tx_hash : Nat)
    (query : Nat → Except String (Option Nat)) :
    ∀ (n lc j : Nat) (r : Nat), 21 - lc = n → lc ≤ j → j ≤ 20 →
      query j = Except.ok (some r) →
      (∀ i, lc ≤ i → i < j → query i = Except.ok none) →
      receiptLoop tx_hash query lc = (Except.ok r, j + 1 - lc) := by
  intro n
  induction n with
  | zero =>
    intro lc j r hn hlj hj _ _
    omega
  | succ m ih =>
    intro lc j r hn hlj hj hq hnone
    rw [receiptLoop, dif_neg (by omega)]
    by_cases hcase : lc = j
    · subst hcase
      rw [hq]
      simp
    · rw [hnone lc (le_refl lc) (by omega)]
      have := ih (lc + 1) j r (by omega) (by omega) hj hq
        (fun i hi hi' => hnone i (by omega) hi')
      simp only [this]
      simp
      omega

lemma receiptLoop_polls_le (tx_hash : Nat)
    (query : Nat → Except String (Option Nat)) :
    ∀ (n lc : Nat), 21 - lc = n →
      (receiptLoop tx_hash query lc).2 ≤ 21 - lc := by
  intro n
  induction n with
  | zero =>
    intro lc hn
    rw [receiptLoop, dif_pos (by omega)]
    simp
  | succ m ih =>
    intro lc hn
    rw [receiptLoop, dif_neg (by omega)]
    cases hq : query lc with
    | error e =>
      simp
      omega
    | ok o =>
      cases o with
      | none =>
        have := ih (lc + 1) (by omega)
        simp only []
        simp
        omega
      | some r =>
        simp
        omega

/-- C10: `get_tx_receipt` always terminates, and on a run whose RPC calls all
succeed: (a) if every query up to loop counter 20 reports no receipt, it
returns the not-mined error for the hash after exactly 21 polls; (b) if `j`
is the first counter whose query reports a receipt `r` (with `j ≤ 20`), it
returns `Ok r` after exactly `j + 1` polls; and (c) for EVERY query
behaviour, transport errors included, it performs at most 21 polls. -/
theorem get_tx_receipt_polling (tx_hash : Nat) (responses : Nat → Option Nat) :
    ((∀ i, i ≤ 20 → responses i = none) →
      get_tx_receipt tx_hash (fun i => Except.ok (responses i))
        = (Except.error ("Transaction not mined for tx hash: " ++
            toString tx_hash), 21)) ∧
    (∀ (j r : Nat), j ≤ 20 → responses j = some r →
      (∀ i, i < j → responses i = none) →
      get_tx_receipt tx_hash (fun i => Except.ok (responses i))
        = (Except.ok r, j + 1)) ∧
    ∀ query : Nat → Except String (Option Nat),
      (get_tx_receipt tx_hash query).2 ≤ 21 := by
  refine ⟨?_, ?_, ?_⟩
  · intro hnone
    simpa using receiptLoop_all_none tx_hash (fun i => Except.ok (responses i))
      21 0 rfl (by omega) (fun i _ hi => by simp [hnone i hi])
  · intro j r hj hq hnone
    simpa using receiptLoop_first_some tx_hash
      (fun i => Except.ok (responses i)) 21 0 j r rfl (Nat.zero_le j) hj
      (by simp [hq]) (fun i _ hi => by simp [hnone i hi])
  · intro query
    simpa using receiptLoop_polls_le tx_hash query 21 0 rfl

/-- Witness for C10: with no receipt ever appearing, the poller stops with
the not-mined error after exactly 21 queries; with a receipt appearing at
the third query, it returns it after exactly 3 queries. -/
theorem get_tx_receipt_polling_witness :
    get_tx_receipt 9 (fun _ => Except.ok (none : Option Nat))
      = (Except.error ("Transaction not mined for tx hash: " ++ toString 9),
          21) ∧
    get_tx_receipt 9 (fun i => Except.ok (if i < 2 then none else some 42))
      = (Except.ok 42, 2 + 1) :=
  ⟨(get_tx_receipt_polling 9 (fun _ => none)).1 (fun _ _ => rfl),
   (get_tx_receipt_polling 9 (fun i => if i < 2 then none else some 42)).2.1
      2 42 (by omega) (by norm_num)
      (fun i hi => by simp [hi])⟩

end MiningCli
